import Mathlib

/-!
Verification of the `extend_metrics` Caddy middleware (caddymetrics).

The development shallowly embeds the two Go source files:

* the size estimator `computeApproximateRequestSize`,
* the per-request instrumentation `ServeHTTP` of `CaddyMetrics`,
* the metric-registry initialisation in `metrics.go`.

`ServeHTTP` is embedded as a pure function from the request and an abstract
description of what the downstream handler does (did it write a response head,
did it return `nil`, an error, or panic, what the response recorder reports
afterwards) to the ordered trace of metric-client effects it performs together
with its return value.  Time is modelled as a rational clock of elapsed
seconds since the request start.  The two normalisation helpers
`SanitizeMethod` and `SanitizeCode` live in a repository file that is not part
of the reviewed sources, so the model is parametric in them.
-/

/-- An inbound HTTP request, with exactly the fields of `net/http.Request`
that `computeApproximateRequestSize` and `ServeHTTP` read.  `URL` is the
serialised form `r.URL.String()` when `r.URL != nil`.  `ContentLength` is a
Go `int64`, conventionally `-1` for "unknown". -/
structure Request where
  URL : Option String
  Method : String
  Proto : String
  Header : List (String × List String)
  Host : String
  ContentLength : Int
deriving Repr, DecidableEq

/-- Go's 64-bit signed `int` addition wraps on overflow; `wrap64` reduces an
integer into the 64-bit range `[-2^63, 2^63)` and is applied to the result of
every `s += ...` of the source. -/
def wrap64 (x : Int) : Int :=
  (x + 9223372036854775808) % 18446744073709551616 - 9223372036854775808

/-- The header loop of `computeApproximateRequestSize`
(`for name, values := range r.Header { s += len(name); for _, value := range
values { s += len(value) } }`), threading the accumulator `s` through one
wrapping 64-bit addition per name and per value. -/
def headerFold : List (String × List String) → Int → Int
  | [], s => s
  | p :: h, s =>
      headerFold h
        (p.2.foldl (fun a v => wrap64 (a + (v.length : Int)))
          (wrap64 (s + (p.1.length : Int))))

/-- Embedding of `computeApproximateRequestSize` (part_000, lines 20–42):
URL string length (when the URL is present), plus method, proto, headers and
host lengths, plus the declared content length whenever it is not `-1`; each
`s += ...` is a wrapping 64-bit `int` addition. -/
def computeApproximateRequestSize (r : Request) : Int :=
  let s : Int := 0
  let s := match r.URL with
    | some u => wrap64 (s + (u.length : Int))
    | none => s
  let s := wrap64 (s + (r.Method.length : Int))
  let s := wrap64 (s + (r.Proto.length : Int))
  let s := headerFold r.Header s
  let s := wrap64 (s + (r.Host.length : Int))
  if r.ContentLength ≠ -1 then wrap64 (s + r.ContentLength) else s

/-- A Go error value as seen by `ServeHTTP`: `errors.As(err, &handlerErr)`
succeeds exactly when the error is (or wraps) a `caddyhttp.HandlerError`, in
which case `asHandlerError` holds that error's `StatusCode`.  `tag`
distinguishes error values so that "returned unchanged" is expressible. -/
structure GoError where
  asHandlerError : Option Int
  tag : Nat
deriving Repr, DecidableEq

/-- How one invocation of the downstream handler terminates. -/
inductive Outcome where
  | ok : Outcome
  | fail : GoError → Outcome
  | panicked : Outcome
deriving Repr, DecidableEq

/-- Observable behaviour of one downstream-handler invocation.

`headWrite` is `some (status, t)` when the handler emits a response head,
carrying the status passed to the `ShouldBufferFunc` hook and the elapsed
time `t` at which the head is written; the Caddy response recorder invokes
the hook at most once, just before the head is flushed.  `endTime` is the
elapsed time at which `next.ServeHTTP` returns (or unwinds).  `recStatus`
and `recSize` are what `wrec.Status()` and `wrec.Size()` report after the
call. -/
structure NextBehavior where
  headWrite : Option (Int × ℚ)
  result : Outcome
  endTime : ℚ
  recStatus : Int
  recSize : Int
deriving Repr, DecidableEq

/-- One effect on the metric registry, or a delegation marker.  Histogram
observations carry their label set `{host, code, method}` and the observed
value. -/
inductive MetricEvent where
  | inFlightInc : String → MetricEvent
  | inFlightDec : String → MetricEvent
  | requestCountInc : String → MetricEvent
  | requestErrorsInc : String → MetricEvent
  | requestDurationObs : String → String → String → ℚ → MetricEvent
  | requestSizeObs : String → String → String → ℚ → MetricEvent
  | responseSizeObs : String → String → String → ℚ → MetricEvent
  | responseDurationObs : String → String → String → ℚ → MetricEvent
  | delegateCall : MetricEvent
  | delegateReturn : MetricEvent
deriving Repr, DecidableEq

/-- Embedding of `(*CaddyMetrics).ServeHTTP` (part_000, lines 57–112),
parametric in the two normalisation helpers.  Returns the ordered trace of
effects and the value `ServeHTTP` itself returns; `defer inFlight.Dec()`
makes the gauge decrement the last effect on every path, including a panic
of the downstream handler. -/
def serveHTTP (SanitizeMethod : String → String) (SanitizeCode : Int → String)
    (r : Request) (b : NextBehavior) : List MetricEvent × Outcome :=
  let method := SanitizeMethod r.Method
  -- statusLabels := prometheus.Labels{"host": r.Host, "method": method, "code": "0"}
  let code0 : String := "0"
  -- inFlight.Inc(); defer inFlight.Dec()
  let ev0 : List MetricEvent := [.inFlightInc r.Host, .delegateCall]
  -- the ShouldBufferFunc hook fires during next.ServeHTTP, iff a head is written
  let hook : String × List MetricEvent :=
    match b.headWrite with
    | none => (code0, [])
    | some (status, t) =>
        let c := SanitizeCode status
        (c, [.responseDurationObs r.Host c method t])
  let code1 := hook.1
  match b.result with
  | .panicked =>
      -- next.ServeHTTP panics: lines 81–111 are skipped, the deferred Dec runs
      (ev0 ++ hook.2 ++ [.inFlightDec r.Host], .panicked)
  | .fail e =>
      let dur := b.endTime
      let ev2 := ev0 ++ hook.2 ++ [.delegateReturn, .requestCountInc r.Host]
      let observeRequest : Int → List MetricEvent := fun status =>
        let c := if code1 = "" then SanitizeCode status else code1
        [.requestDurationObs r.Host c method dur,
         .requestSizeObs r.Host c method ((computeApproximateRequestSize r : Int) : ℚ),
         .responseSizeObs r.Host c method ((b.recSize : Int) : ℚ)]
      let ev3 :=
        match e.asHandlerError with
        | some status => ev2 ++ observeRequest status
        | none => ev2
      (ev3 ++ [.requestErrorsInc r.Host, .inFlightDec r.Host], .fail e)
  | .ok =>
      let dur := b.endTime
      let ev2 := ev0 ++ hook.2 ++ [.delegateReturn, .requestCountInc r.Host]
      let observeRequest : Int → List MetricEvent := fun status =>
        let c := if code1 = "" then SanitizeCode status else code1
        [.requestDurationObs r.Host c method dur,
         .requestSizeObs r.Host c method ((computeApproximateRequestSize r : Int) : ℚ),
         .responseSizeObs r.Host c method ((b.recSize : Int) : ℚ)]
      (ev2 ++ observeRequest b.recStatus ++ [.inFlightDec r.Host], .ok)

/-- One step of the in-flight gauge series for host `h`. -/
def inFlightStep (h : String) (acc : Int) : MetricEvent → Int
  | .inFlightInc h2 => if h2 = h then acc + 1 else acc
  | .inFlightDec h2 => if h2 = h then acc - 1 else acc
  | _ => acc

/-- Net effect of a trace on the in-flight gauge series for host `h`. -/
def inFlightDelta (h : String) (tr : List MetricEvent) : Int :=
  tr.foldl (inFlightStep h) 0

def isInFlightEvent : MetricEvent → Bool
  | .inFlightInc _ => true
  | .inFlightDec _ => true
  | _ => false

def isRequestCountInc : MetricEvent → Bool
  | .requestCountInc _ => true
  | _ => false

def isRequestErrorsInc : MetricEvent → Bool
  | .requestErrorsInc _ => true
  | _ => false

def isRequestDurationObs : MetricEvent → Bool
  | .requestDurationObs _ _ _ _ => true
  | _ => false

def isRequestSizeObs : MetricEvent → Bool
  | .requestSizeObs _ _ _ _ => true
  | _ => false

def isResponseSizeObs : MetricEvent → Bool
  | .responseSizeObs _ _ _ _ => true
  | _ => false

def isResponseDurationObs : MetricEvent → Bool
  | .responseDurationObs _ _ _ _ => true
  | _ => false

/-- Events emitted by the error/success branching after delegation: the three
finalisation histograms and the error counter. -/
def isFinalizationEffect (e : MetricEvent) : Bool :=
  isRequestDurationObs e || isRequestSizeObs e || isResponseSizeObs e ||
    isRequestErrorsInc e

/-! ## The metric registry (metrics.go) -/

inductive InstrumentKind where
  | gauge : InstrumentKind
  | counter : InstrumentKind
  | histogram : InstrumentKind
deriving Repr, DecidableEq

/-- One registered metric instrument: kind, namespace/subsystem/name, label
schema and (for histograms) bucket boundaries. -/
structure Instrument where
  kind : InstrumentKind
  ns : String
  subsystem : String
  name : String
  labelNames : List String
  buckets : List ℚ
deriving Repr, DecidableEq

/-- `prometheus.DefBuckets`: the client library's default second-scale
duration buckets. -/
def DefBuckets : List ℚ :=
  [5/1000, 1/100, 25/1000, 5/100, 1/10, 25/100, 1/2, 1, 25/10, 5, 10]

/-- `prometheus.ExponentialBuckets(start, factor, count)`: `count` buckets,
the first at `start`, each subsequent one `factor` times the previous. -/
def ExponentialBuckets (start factor : ℚ) : Nat → List ℚ
  | 0 => []
  | n + 1 => start :: ExponentialBuckets (start * factor) factor n

/-- Embedding of the `init` function of metrics.go: the instruments it
registers, in registration order, with their namespace, subsystem, name,
label schema and buckets. -/
def initInstruments : List Instrument :=
  let ns := "caddy"
  let sub := "http_extend"
  let basicLabels := ["host"]
  let durationBuckets := DefBuckets
  let sizeBuckets := ExponentialBuckets 256 4 8
  let httpLabels := ["host", "code", "method"]
  [⟨.gauge, ns, sub, "requests_in_flight", basicLabels, []⟩,
   ⟨.counter, ns, sub, "request_errors_total", basicLabels, []⟩,
   ⟨.counter, ns, sub, "requests_total", basicLabels, []⟩,
   ⟨.histogram, ns, sub, "request_duration_seconds", httpLabels, durationBuckets⟩,
   ⟨.histogram, ns, sub, "request_size_bytes", httpLabels, sizeBuckets⟩,
   ⟨.histogram, ns, sub, "response_size_bytes", httpLabels, sizeBuckets⟩,
   ⟨.histogram, ns, sub, "response_duration_seconds", httpLabels, durationBuckets⟩]

/-! ## Size-estimator theorems -/

/-- Ideal (non-wrapping) sum of the value lengths of one header entry. -/
def innerSum : List String → Int
  | [] => 0
  | v :: vs => (v.length : Int) + innerSum vs

/-- Ideal (non-wrapping) sum of all header name and value lengths. -/
def headerSum : List (String × List String) → Int
  | [] => 0
  | p :: h => (p.1.length : Int) + innerSum p.2 + headerSum h

/-- The ideal (unbounded) value of the size estimate: what the source
computes whenever none of its 64-bit additions overflows. -/
def exactRequestSize (r : Request) : Int :=
  (match r.URL with
    | some u => (u.length : Int)
    | none => 0) +
    (r.Method.length : Int) + (r.Proto.length : Int) + headerSum r.Header +
    (r.Host.length : Int) +
    (if r.ContentLength ≠ -1 then r.ContentLength else 0)

lemma innerSum_nonneg (vs : List String) : 0 ≤ innerSum vs := by
  induction vs with
  | nil => exact le_refl 0
  | cons v vs ih =>
      simp only [innerSum]
      omega

lemma headerSum_nonneg (h : List (String × List String)) : 0 ≤ headerSum h := by
  induction h with
  | nil => exact le_refl 0
  | cons p h ih =>
      have hi := innerSum_nonneg p.2
      simp only [headerSum]
      omega

lemma wrap64_eq_self (x : Int) (h1 : -9223372036854775808 ≤ x)
    (h2 : x < 9223372036854775808) : wrap64 x = x := by
  unfold wrap64
  rw [Int.emod_eq_of_lt (by omega) (by omega)]
  omega

lemma innerFold_eq (vs : List String) (a : Int) (h0 : 0 ≤ a)
    (hB : a + innerSum vs < 9223372036854775808) :
    vs.foldl (fun a2 v => wrap64 (a2 + (v.length : Int))) a =
      a + innerSum vs := by
  induction vs generalizing a with
  | nil => simp [innerSum]
  | cons v vs ih =>
      simp only [innerSum] at hB ⊢
      have hv := innerSum_nonneg vs
      have hstep : wrap64 (a + (v.length : Int)) = a + (v.length : Int) :=
        wrap64_eq_self _ (by omega) (by omega)
      rw [List.foldl_cons, hstep, ih _ (by omega) (by omega)]
      omega

lemma headerFold_eq (h : List (String × List String)) (s : Int) (h0 : 0 ≤ s)
    (hB : s + headerSum h < 9223372036854775808) :
    headerFold h s = s + headerSum h := by
  induction h generalizing s with
  | nil => simp [headerFold, headerSum]
  | cons p h ih =>
      simp only [headerSum] at hB ⊢
      have hn := innerSum_nonneg p.2
      have hh := headerSum_nonneg h
      have hname : wrap64 (s + (p.1.length : Int)) = s + (p.1.length : Int) :=
        wrap64_eq_self _ (by omega) (by omega)
      simp only [headerFold]
      rw [hname,
        innerFold_eq p.2 (s + (p.1.length : Int)) (by omega) (by omega),
        ih _ (by omega) (by omega)]
      omega

/-- On overflow-free inputs the wrapping computation agrees with the ideal
sum. -/
lemma computeApproximateRequestSize_eq_exact (r : Request)
    (h1 : -1 ≤ r.ContentLength)
    (hB : exactRequestSize r < 9223372036854775808) :
    computeApproximateRequestSize r = exactRequestSize r := by
  rcases r with ⟨url, m, p, hd, host, cl⟩
  replace h1 : -1 ≤ cl := h1
  have hh := headerSum_nonneg hd
  cases url with
  | none =>
      simp only [computeApproximateRequestSize, exactRequestSize] at hB ⊢
      split_ifs at hB ⊢ with hcl
      · rw [wrap64_eq_self (0 + (m.length : Int)) (by omega) (by omega),
          wrap64_eq_self (0 + (m.length : Int) + (p.length : Int))
            (by omega) (by omega),
          headerFold_eq hd _ (by omega) (by omega),
          wrap64_eq_self (0 + (m.length : Int) + (p.length : Int) +
            headerSum hd + (host.length : Int)) (by omega) (by omega),
          wrap64_eq_self _ (by omega) (by omega)]
      · rw [wrap64_eq_self (0 + (m.length : Int)) (by omega) (by omega),
          wrap64_eq_self (0 + (m.length : Int) + (p.length : Int))
            (by omega) (by omega),
          headerFold_eq hd _ (by omega) (by omega),
          wrap64_eq_self (0 + (m.length : Int) + (p.length : Int) +
            headerSum hd + (host.length : Int)) (by omega) (by omega)]
        omega
  | some u =>
      simp only [computeApproximateRequestSize, exactRequestSize] at hB ⊢
      split_ifs at hB ⊢ with hcl
      · rw [wrap64_eq_self (0 + (u.length : Int)) (by omega) (by omega),
          wrap64_eq_self (0 + (u.length : Int) + (m.length : Int))
            (by omega) (by omega),
          wrap64_eq_self (0 + (u.length : Int) + (m.length : Int) +
            (p.length : Int)) (by omega) (by omega),
          headerFold_eq hd _ (by omega) (by omega),
          wrap64_eq_self (0 + (u.length : Int) + (m.length : Int) +
            (p.length : Int) + headerSum hd + (host.length : Int))
            (by omega) (by omega),
          wrap64_eq_self _ (by omega) (by omega)]
        omega
      · rw [wrap64_eq_self (0 + (u.length : Int)) (by omega) (by omega),
          wrap64_eq_self (0 + (u.length : Int) + (m.length : Int))
            (by omega) (by omega),
          wrap64_eq_self (0 + (u.length : Int) + (m.length : Int) +
            (p.length : Int)) (by omega) (by omega),
          headerFold_eq hd _ (by omega) (by omega),
          wrap64_eq_self (0 + (u.length : Int) + (m.length : Int) +
            (p.length : Int) + headerSum hd + (host.length : Int))
            (by omega) (by omega)]
        omega

lemma exactRequestSize_nonneg (r : Request) (h1 : -1 ≤ r.ContentLength) :
    0 ≤ exactRequestSize r := by
  rcases r with ⟨url, m, p, hd, host, cl⟩
  replace h1 : -1 ≤ cl := h1
  have hh := headerSum_nonneg hd
  cases url <;> simp only [exactRequestSize] <;> split_ifs <;> omega

lemma exactRequestSize_update (r : Request) :
    exactRequestSize { r with ContentLength := -1 } =
      exactRequestSize r -
        (if r.ContentLength ≠ -1 then r.ContentLength else 0) := by
  rcases r with ⟨url, m, p, hd, host, cl⟩
  cases url <;> simp only [exactRequestSize] <;> split_ifs <;> omega

/-- The estimate with the content-length contribution removed. -/
def sizeWithoutContentLength (r : Request) : Int :=
  computeApproximateRequestSize { r with ContentLength := -1 }

/-- A request with `ContentLength = -2`: `-2 != -1`, so the code adds it and
the estimate is negative. -/
def reqNegativeCL : Request := ⟨none, "", "", [], "", -2⟩

/-- A request declaring the maximal int64 content-length against host "h":
the final 64-bit addition `1 + (2^63 - 1)` wraps to `-2^63`. -/
def reqOverflowCL : Request := ⟨none, "", "", [], "h", 9223372036854775807⟩

/-- A sample request: GET of "/x" with one header and a 3-byte body. -/
def reqSample : Request := ⟨some "/x", "GET", "HTTP/1.1", [("A", ["b"])], "h", 3⟩

/-- C7 (counterexamples): a declared content-length of `-2` (neither `-1` nor
non-negative) makes the estimate `-2`; and a maximal declared content-length
of `2^63 - 1` — which is `≥ -1` — wraps the 64-bit sum to `-2^63`.  Both
refute "always returns a non-negative integer". -/
theorem computeApproximateRequestSize_neg_cex :
    (computeApproximateRequestSize reqNegativeCL = -2 ∧
      computeApproximateRequestSize reqNegativeCL < 0) ∧
      (computeApproximateRequestSize reqOverflowCL = -9223372036854775808 ∧
        computeApproximateRequestSize reqOverflowCL < 0 ∧
        -1 ≤ reqOverflowCL.ContentLength) := by
  refine ⟨⟨?_, ?_⟩, ?_, ?_, ?_⟩ <;> decide

/-- C7 (amended): for every request whose declared content-length is `-1` or
non-negative and whose ideal size total stays below `2^63` (no 64-bit
overflow), the estimate is non-negative and equals the ideal total; a
content-length of `-1` contributes zero and a non-negative one contributes
exactly its value. -/
theorem computeApproximateRequestSize_nonneg (r : Request)
    (h1 : -1 ≤ r.ContentLength)
    (h2 : exactRequestSize r < 9223372036854775808) :
    0 ≤ computeApproximateRequestSize r ∧
      computeApproximateRequestSize r = exactRequestSize r ∧
      computeApproximateRequestSize r =
        sizeWithoutContentLength r +
          (if 0 ≤ r.ContentLength then r.ContentLength else 0) := by
  have hex := computeApproximateRequestSize_eq_exact r h1 h2
  have hnn := exactRequestSize_nonneg r h1
  have hupd := exactRequestSize_update r
  have h1x : -1 ≤ ({ r with ContentLength := -1 } : Request).ContentLength :=
    le_refl (-1)
  have h2x : exactRequestSize { r with ContentLength := -1 } <
      9223372036854775808 := by
    rw [hupd]
    split_ifs <;> omega
  have hex2 := computeApproximateRequestSize_eq_exact _ h1x h2x
  unfold sizeWithoutContentLength
  refine ⟨by omega, hex, ?_⟩
  rw [hex, hex2, hupd]
  split_ifs <;> omega

/-- Witness for `computeApproximateRequestSize_nonneg` at `reqSample`. -/
theorem computeApproximateRequestSize_nonneg_witness :
    -1 ≤ reqSample.ContentLength ∧
      exactRequestSize reqSample < 9223372036854775808 ∧
      (0 ≤ computeApproximateRequestSize reqSample ∧
        computeApproximateRequestSize reqSample = exactRequestSize reqSample ∧
        computeApproximateRequestSize reqSample =
          sizeWithoutContentLength reqSample +
            (if 0 ≤ reqSample.ContentLength then reqSample.ContentLength
              else 0)) :=
  ⟨by decide, by decide,
    computeApproximateRequestSize_nonneg reqSample (by decide) (by decide)⟩

/-- C8: for a request with method "GET", no headers, host "h", content-length
`-1` and target "/x", the estimate is the sum of the four string lengths,
with no content-length contribution, for every protocol string short enough
that the 64-bit sum cannot overflow (every real protocol string is). -/
theorem computeApproximateRequestSize_get_example (p : String)
    (hp : (p.length : Int) ≤ 9223372036854775801) :
    computeApproximateRequestSize ⟨some "/x", "GET", p, [], "h", -1⟩ =
      ("/x".length : Int) + ("GET".length : Int) + (p.length : Int) +
        ("h".length : Int) := by
  have e1 : ("/x".length : Int) = 2 := by decide
  have e2 : ("GET".length : Int) = 3 := by decide
  have e3 : ("h".length : Int) = 1 := by decide
  have h2 : exactRequestSize ⟨some "/x", "GET", p, [], "h", -1⟩ <
      9223372036854775808 := by
    simp only [exactRequestSize, headerSum]
    omega
  rw [computeApproximateRequestSize_eq_exact _ (le_refl (-1)) h2]
  simp only [exactRequestSize, headerSum]
  omega

/-- Witness for `computeApproximateRequestSize_get_example` at "HTTP/1.1". -/
theorem computeApproximateRequestSize_get_example_witness :
    (("HTTP/1.1".length : Int) ≤ 9223372036854775801) ∧
      computeApproximateRequestSize ⟨some "/x", "GET", "HTTP/1.1", [], "h", -1⟩ =
        ("/x".length : Int) + ("GET".length : Int) +
          (("HTTP/1.1".length : Int)) + ("h".length : Int) :=
  ⟨by decide, computeApproximateRequestSize_get_example "HTTP/1.1" (by decide)⟩

/-! ## In-flight gauge (C2) -/

lemma inFlightStep_other (h : String) (acc : Int) (e : MetricEvent)
    (he : isInFlightEvent e = false) : inFlightStep h acc e = acc := by
  cases e <;> simp_all [isInFlightEvent, inFlightStep]

lemma foldl_inFlightStep_const (h : String) (mid : List MetricEvent) (acc : Int)
    (hm : ∀ e ∈ mid, isInFlightEvent e = false) :
    mid.foldl (inFlightStep h) acc = acc := by
  induction mid generalizing acc with
  | nil => rfl
  | cons e l ih =>
      rw [List.foldl_cons, inFlightStep_other h acc e (hm e (by simp))]
      exact ih _ (fun x hx => hm x (by simp [hx]))

lemma inFlightDelta_shape (h : String) (mid : List MetricEvent)
    (hm : ∀ e ∈ mid, isInFlightEvent e = false) :
    inFlightDelta h
      (.inFlightInc h :: .delegateCall :: (mid ++ [.inFlightDec h])) = 0 := by
  unfold inFlightDelta
  rw [List.foldl_cons, List.foldl_cons, List.foldl_append,
    foldl_inFlightStep_const h mid _ hm]
  simp [inFlightStep]

/-- Every trace of `serveHTTP` is the gauge increment, then the delegation,
then gauge-neutral events, then the deferred gauge decrement. -/
lemma serveHTTP_trace_shape (sm : String → String) (sc : Int → String)
    (r : Request) (b : NextBehavior) :
    ∃ mid, (serveHTTP sm sc r b).1 =
        .inFlightInc r.Host :: .delegateCall :: (mid ++ [.inFlightDec r.Host]) ∧
      ∀ e ∈ mid, isInFlightEvent e = false := by
  rcases b with ⟨hw, res, et, rs, rz⟩
  rcases res with _ | ⟨ah, tg⟩ | _
  · rcases hw with _ | ⟨s, t⟩
    · refine ⟨[.delegateReturn, .requestCountInc r.Host,
        .requestDurationObs r.Host "0" (sm r.Method) et,
        .requestSizeObs r.Host "0" (sm r.Method)
          ((computeApproximateRequestSize r : Int) : ℚ),
        .responseSizeObs r.Host "0" (sm r.Method) ((rz : Int) : ℚ)], rfl, ?_⟩
      intro e he
      fin_cases he <;> rfl
    · refine ⟨[.responseDurationObs r.Host (sc s) (sm r.Method) t,
        .delegateReturn, .requestCountInc r.Host,
        .requestDurationObs r.Host
          (if sc s = "" then sc rs else sc s) (sm r.Method) et,
        .requestSizeObs r.Host (if sc s = "" then sc rs else sc s) (sm r.Method)
          ((computeApproximateRequestSize r : Int) : ℚ),
        .responseSizeObs r.Host (if sc s = "" then sc rs else sc s)
          (sm r.Method) ((rz : Int) : ℚ)], rfl, ?_⟩
      intro e he
      fin_cases he <;> rfl
  · rcases ah with _ | st
    · rcases hw with _ | ⟨s, t⟩
      · refine ⟨[.delegateReturn, .requestCountInc r.Host,
          .requestErrorsInc r.Host], rfl, ?_⟩
        intro e he
        fin_cases he <;> rfl
      · refine ⟨[.responseDurationObs r.Host (sc s) (sm r.Method) t,
          .delegateReturn, .requestCountInc r.Host,
          .requestErrorsInc r.Host], rfl, ?_⟩
        intro e he
        fin_cases he <;> rfl
    · rcases hw with _ | ⟨s, t⟩
      · refine ⟨[.delegateReturn, .requestCountInc r.Host,
          .requestDurationObs r.Host "0" (sm r.Method) et,
          .requestSizeObs r.Host "0" (sm r.Method)
            ((computeApproximateRequestSize r : Int) : ℚ),
          .responseSizeObs r.Host "0" (sm r.Method) ((rz : Int) : ℚ),
          .requestErrorsInc r.Host], rfl, ?_⟩
        intro e he
        fin_cases he <;> rfl
      · refine ⟨[.responseDurationObs r.Host (sc s) (sm r.Method) t,
          .delegateReturn, .requestCountInc r.Host,
          .requestDurationObs r.Host
            (if sc s = "" then sc st else sc s) (sm r.Method) et,
          .requestSizeObs r.Host (if sc s = "" then sc st else sc s)
            (sm r.Method) ((computeApproximateRequestSize r : Int) : ℚ),
          .responseSizeObs r.Host (if sc s = "" then sc st else sc s)
            (sm r.Method) ((rz : Int) : ℚ),
          .requestErrorsInc r.Host], rfl, ?_⟩
        intro e he
        fin_cases he <;> rfl
  · rcases hw with _ | ⟨s, t⟩
    · exact ⟨[], rfl, by intro e he; cases he⟩
    · refine ⟨[.responseDurationObs r.Host (sc s) (sm r.Method) t], rfl, ?_⟩
      intro e he
      fin_cases he
      rfl

/-- C2: for every request and every downstream behaviour — success, error
with or without a status code, or abnormal unwind — the in-flight gauge for
the request's host nets to zero over the trace, the gauge increment is the
first effect (strictly before delegation) and the deferred decrement is the
last (strictly after), with no other gauge event in between. -/
theorem serveHTTP_inFlight_balanced (sm : String → String) (sc : Int → String)
    (r : Request) (b : NextBehavior) :
    inFlightDelta r.Host (serveHTTP sm sc r b).1 = 0 ∧
      ∃ mid, (serveHTTP sm sc r b).1 =
          .inFlightInc r.Host :: .delegateCall :: (mid ++ [.inFlightDec r.Host]) ∧
        ∀ e ∈ mid, isInFlightEvent e = false := by
  obtain ⟨mid, hmid, hm⟩ := serveHTTP_trace_shape sm sc r b
  exact ⟨by rw [hmid]; exact inFlightDelta_shape _ _ hm, mid, hmid, hm⟩

/-! ## Total-request counter (C3) -/

/-- C3: whenever the downstream handler returns (normally or with an error),
the total-request counter for the request's host is incremented exactly once,
the increment is placed immediately after the delegation returns, and no
error/success-branch effect (finalisation histogram or error counter) occurs
before it. -/
theorem serveHTTP_requestCount_once (sm : String → String) (sc : Int → String)
    (r : Request) (b : NextBehavior) (h : b.result ≠ .panicked) :
    (serveHTTP sm sc r b).1.filter isRequestCountInc =
        [.requestCountInc r.Host] ∧
      ∃ pre post, (serveHTTP sm sc r b).1 =
          pre ++ .delegateReturn :: .requestCountInc r.Host :: post ∧
        ∀ e ∈ pre, isFinalizationEffect e = false := by
  rcases b with ⟨hw, res, et, rs, rz⟩
  rcases res with _ | ⟨ah, tg⟩ | _
  · rcases hw with _ | ⟨s, t⟩
    · exact ⟨rfl, ⟨[.inFlightInc r.Host, .delegateCall],
        [.requestDurationObs r.Host "0" (sm r.Method) et,
         .requestSizeObs r.Host "0" (sm r.Method)
           ((computeApproximateRequestSize r : Int) : ℚ),
         .responseSizeObs r.Host "0" (sm r.Method) ((rz : Int) : ℚ),
         .inFlightDec r.Host], rfl, by intro e he; fin_cases he <;> rfl⟩⟩
    · exact ⟨rfl, ⟨[.inFlightInc r.Host, .delegateCall,
        .responseDurationObs r.Host (sc s) (sm r.Method) t],
        [.requestDurationObs r.Host
           (if sc s = "" then sc rs else sc s) (sm r.Method) et,
         .requestSizeObs r.Host (if sc s = "" then sc rs else sc s)
           (sm r.Method) ((computeApproximateRequestSize r : Int) : ℚ),
         .responseSizeObs r.Host (if sc s = "" then sc rs else sc s)
           (sm r.Method) ((rz : Int) : ℚ),
         .inFlightDec r.Host], rfl, by intro e he; fin_cases he <;> rfl⟩⟩
  · rcases ah with _ | st
    · rcases hw with _ | ⟨s, t⟩
      · exact ⟨rfl, ⟨[.inFlightInc r.Host, .delegateCall],
          [.requestErrorsInc r.Host, .inFlightDec r.Host], rfl,
          by intro e he; fin_cases he <;> rfl⟩⟩
      · exact ⟨rfl, ⟨[.inFlightInc r.Host, .delegateCall,
          .responseDurationObs r.Host (sc s) (sm r.Method) t],
          [.requestErrorsInc r.Host, .inFlightDec r.Host], rfl,
          by intro e he; fin_cases he <;> rfl⟩⟩
    · rcases hw with _ | ⟨s, t⟩
      · exact ⟨rfl, ⟨[.inFlightInc r.Host, .delegateCall],
          [.requestDurationObs r.Host "0" (sm r.Method) et,
           .requestSizeObs r.Host "0" (sm r.Method)
             ((computeApproximateRequestSize r : Int) : ℚ),
           .responseSizeObs r.Host "0" (sm r.Method) ((rz : Int) : ℚ),
           .requestErrorsInc r.Host, .inFlightDec r.Host], rfl,
          by intro e he; fin_cases he <;> rfl⟩⟩
      · exact ⟨rfl, ⟨[.inFlightInc r.Host, .delegateCall,
          .responseDurationObs r.Host (sc s) (sm r.Method) t],
          [.requestDurationObs r.Host
             (if sc s = "" then sc st else sc s) (sm r.Method) et,
           .requestSizeObs r.Host (if sc s = "" then sc st else sc s)
             (sm r.Method) ((computeApproximateRequestSize r : Int) : ℚ),
           .responseSizeObs r.Host (if sc s = "" then sc st else sc s)
             (sm r.Method) ((rz : Int) : ℚ),
           .requestErrorsInc r.Host, .inFlightDec r.Host], rfl,
          by intro e he; fin_cases he <;> rfl⟩⟩
  · exact absurd rfl h

/-! ## Error paths (C4, C5) -/

/-- C4: when the downstream handler returns an error carrying an extractable
status code, exactly one observation goes to each of the request-duration,
request-size and response-size histograms, all three under one label set
`{host, code, method}`, the error counter for the host is incremented once,
and the error value is returned unchanged. -/
theorem serveHTTP_error_with_status (sm : String → String) (sc : Int → String)
    (r : Request) (b : NextBehavior) (e : GoError) (st : Int)
    (hres : b.result = .fail e) (hst : e.asHandlerError = some st) :
    ∃ c, (serveHTTP sm sc r b).1.filter isRequestDurationObs =
          [.requestDurationObs r.Host c (sm r.Method) b.endTime] ∧
        (serveHTTP sm sc r b).1.filter isRequestSizeObs =
          [.requestSizeObs r.Host c (sm r.Method)
            ((computeApproximateRequestSize r : Int) : ℚ)] ∧
        (serveHTTP sm sc r b).1.filter isResponseSizeObs =
          [.responseSizeObs r.Host c (sm r.Method) ((b.recSize : Int) : ℚ)] ∧
        (serveHTTP sm sc r b).1.filter isRequestErrorsInc =
          [.requestErrorsInc r.Host] ∧
        (serveHTTP sm sc r b).2 = .fail e := by
  rcases b with ⟨hw, res, et, rs, rz⟩
  rcases e with ⟨ah, tg⟩
  subst hres
  change ah = some st at hst
  subst hst
  rcases hw with _ | ⟨s, t⟩
  · exact ⟨"0", rfl, rfl, rfl, rfl, rfl⟩
  · exact ⟨if sc s = "" then sc st else sc s, rfl, rfl, rfl, rfl, rfl⟩

/-- C5: when the downstream handler returns an error with no extractable
status code, the request-duration, request-size and response-size histograms
receive no observation at all, yet the error counter for the host is still
incremented once and the error value is returned unchanged. -/
theorem serveHTTP_error_no_status (sm : String → String) (sc : Int → String)
    (r : Request) (b : NextBehavior) (e : GoError)
    (hres : b.result = .fail e) (hst : e.asHandlerError = none) :
    (serveHTTP sm sc r b).1.filter isRequestDurationObs = [] ∧
      (serveHTTP sm sc r b).1.filter isRequestSizeObs = [] ∧
      (serveHTTP sm sc r b).1.filter isResponseSizeObs = [] ∧
      (serveHTTP sm sc r b).1.filter isRequestErrorsInc =
        [.requestErrorsInc r.Host] ∧
      (serveHTTP sm sc r b).2 = .fail e := by
  rcases b with ⟨hw, res, et, rs, rz⟩
  rcases e with ⟨ah, tg⟩
  subst hres
  change ah = none at hst
  subst hst
  rcases hw with _ | ⟨s, t⟩
  · exact ⟨rfl, rfl, rfl, rfl, rfl⟩
  · exact ⟨rfl, rfl, rfl, rfl, rfl⟩

/-! ## Time-to-first-byte (C6) -/

/-- The clock is monotone: a head written during delegation is written no
later than the moment delegation ends. -/
def clockOk (b : NextBehavior) : Prop :=
  match b.headWrite with
  | none => True
  | some (_, t) => t ≤ b.endTime

/-- C6: a time-to-first-byte observation is recorded at most once, never when
the handler writes no response head, and any recorded value is at most the
round-trip duration observed into the request-duration histogram at
finalisation. -/
theorem serveHTTP_ttfb_once_le_duration (sm : String → String)
    (sc : Int → String) (r : Request) (b : NextBehavior) (hc : clockOk b) :
    ((serveHTTP sm sc r b).1.filter isResponseDurationObs).length ≤ 1 ∧
      (b.headWrite = none →
        (serveHTTP sm sc r b).1.filter isResponseDurationObs = []) ∧
      (∀ h1 c1 m1 v, MetricEvent.responseDurationObs h1 c1 m1 v ∈
          (serveHTTP sm sc r b).1 →
        ∀ h2 c2 m2 d, MetricEvent.requestDurationObs h2 c2 m2 d ∈
            (serveHTTP sm sc r b).1 →
          v ≤ d) := by
  rcases b with ⟨hw, res, et, rs, rz⟩
  rcases res with _ | ⟨ah, tg⟩ | _
  · rcases hw with _ | ⟨s, t⟩
    · refine ⟨Nat.zero_le 1, fun _ => rfl, ?_⟩
      intro h1 c1 m1 v hv h2 c2 m2 d hd
      simp [serveHTTP] at hv
    · refine ⟨Nat.le_refl 1, fun hn => by simp at hn, ?_⟩
      intro h1 c1 m1 v hv h2 c2 m2 d hd
      simp only [clockOk] at hc
      simp [serveHTTP] at hv hd
      obtain ⟨-, -, -, rfl⟩ := hv
      obtain ⟨-, -, -, rfl⟩ := hd
      exact hc
  · rcases ah with _ | st
    · rcases hw with _ | ⟨s, t⟩
      · refine ⟨Nat.zero_le 1, fun _ => rfl, ?_⟩
        intro h1 c1 m1 v hv h2 c2 m2 d hd
        simp [serveHTTP] at hv
      · refine ⟨Nat.le_refl 1, fun hn => by simp at hn, ?_⟩
        intro h1 c1 m1 v hv h2 c2 m2 d hd
        simp [serveHTTP] at hd
    · rcases hw with _ | ⟨s, t⟩
      · refine ⟨Nat.zero_le 1, fun _ => rfl, ?_⟩
        intro h1 c1 m1 v hv h2 c2 m2 d hd
        simp [serveHTTP] at hv
      · refine ⟨Nat.le_refl 1, fun hn => by simp at hn, ?_⟩
        intro h1 c1 m1 v hv h2 c2 m2 d hd
        simp only [clockOk] at hc
        simp [serveHTTP] at hv hd
        obtain ⟨-, -, -, rfl⟩ := hv
        obtain ⟨-, -, -, rfl⟩ := hd
        exact hc
  · rcases hw with _ | ⟨s, t⟩
    · refine ⟨Nat.zero_le 1, fun _ => rfl, ?_⟩
      intro h1 c1 m1 v hv h2 c2 m2 d hd
      simp [serveHTTP] at hv
    · refine ⟨Nat.le_refl 1, fun hn => by simp at hn, ?_⟩
      intro h1 c1 m1 v hv h2 c2 m2 d hd
      simp [serveHTTP] at hd

/-! ## Concrete instantiations -/

/-- Modelled from the spec: the normalisation helper `SanitizeMethod` is
referenced by `ServeHTTP` but defined outside the reviewed sources; the spec
fixes only that it is bounded, finite-cardinality and deterministic.  All
theorems above are parametric in it; this fixed sample serves only to run
the model on concrete inputs. -/
def sampleSanitizeMethod (m : String) : String := m

/-- Modelled from the spec: the normalisation helper `SanitizeCode` is
referenced by `ServeHTTP` but defined outside the reviewed sources; the spec
fixes only that it maps a numeric status code to a bounded, deterministic
class label.  All theorems above are parametric in it; this fixed sample
serves only to run the model on concrete inputs. -/
def sampleSanitizeCode (c : Int) : String := toString c

/-- A GET request for "/" against host "example.com". -/
def reqFallthrough : Request :=
  ⟨some "/", "GET", "HTTP/1.1", [], "example.com", -1⟩

/-- A fall-through run: the handler writes no response head and returns
`nil`; the recorder reports status 0 and 0 bytes written. -/
def behFallthrough : NextBehavior := ⟨none, .ok, 1, 0, 0⟩

/-- C1: on a fall-through run (head hook never fired, `nil` returned,
finalisation status 0) the status-code label of the three finalisation
observations is still the initial sentinel "0" — for every choice of the
`SanitizeCode` helper, which is never consulted: the fallback guard compares
the label against the empty string, while it was initialised to "0", so the
code path that should derive the label from the status passed into
finalisation is unreachable. -/
theorem serveHTTP_fallthrough_code_label (sm : String → String)
    (sc : Int → String) :
    (serveHTTP sm sc reqFallthrough behFallthrough).1.filter
        isRequestDurationObs =
      [.requestDurationObs "example.com" "0" (sm "GET") 1] ∧
    (serveHTTP sm sc reqFallthrough behFallthrough).1.filter
        isRequestSizeObs =
      [.requestSizeObs "example.com" "0" (sm "GET")
        ((computeApproximateRequestSize reqFallthrough : Int) : ℚ)] ∧
    (serveHTTP sm sc reqFallthrough behFallthrough).1.filter
        isResponseSizeObs =
      [.responseSizeObs "example.com" "0" (sm "GET") ((0 : Int) : ℚ)] ∧
    (serveHTTP sm sc reqFallthrough behFallthrough).1.filter
        isResponseDurationObs = [] := by
  exact ⟨rfl, rfl, rfl, rfl⟩

/-! ## Registry initialisation (C9) -/

/-- C9 (counterexample): the registry initialisation registers seven
instruments, not six. -/
theorem initInstruments_not_six :
    initInstruments.length = 7 ∧ initInstruments.length ≠ 6 := by
  constructor <;> decide

/-- C9 (amended): initialisation registers all seven instruments under the
fixed namespace/subsystem prefix `caddy`/`http_extend`, with fixed names and
label schemas, the client library's standard second-scale duration buckets
for the two duration histograms, and, for the two size histograms, eight
exponentially growing buckets starting at 256 bytes with growth factor 4. -/
theorem initInstruments_registry :
    initInstruments.length = 7 ∧
      (∀ i ∈ initInstruments, i.ns = "caddy" ∧ i.subsystem = "http_extend") ∧
      initInstruments.map Instrument.name =
        ["requests_in_flight", "request_errors_total", "requests_total",
         "request_duration_seconds", "request_size_bytes",
         "response_size_bytes", "response_duration_seconds"] ∧
      (∀ i ∈ initInstruments, i.kind = .histogram →
        i.labelNames = ["host", "code", "method"]) ∧
      (∀ i ∈ initInstruments, i.kind ≠ .histogram →
        i.labelNames = ["host"] ∧ i.buckets = []) ∧
      (∀ i ∈ initInstruments,
        (i.name = "request_duration_seconds" ∨
          i.name = "response_duration_seconds") → i.buckets = DefBuckets) ∧
      (∀ i ∈ initInstruments,
        (i.name = "request_size_bytes" ∨ i.name = "response_size_bytes") →
          i.buckets = ExponentialBuckets 256 4 8) ∧
      ExponentialBuckets 256 4 8 =
        [256, 1024, 4096, 16384, 65536, 262144, 1048576, 4194304] ∧
      (ExponentialBuckets 256 4 8).length = 8 ∧
      (ExponentialBuckets 256 4 8).head? = some 256 ∧
      List.Chain' (fun a b => b = 4 * a) (ExponentialBuckets 256 4 8) := by
  refine ⟨by decide, ?_, rfl, ?_, ?_, ?_, ?_,
    by norm_num [ExponentialBuckets], rfl, rfl,
    by norm_num [ExponentialBuckets, List.chain'_cons]⟩ <;>
    (intro i hi; fin_cases hi <;> simp [initInstruments])

/-! ## Panic path (C10) -/

/-- A run in which the handler writes a 200 response head and then panics. -/
def behPanicAfterHead : NextBehavior := ⟨some (200, 1), .panicked, 1, 0, 0⟩

/-- C10 (counterexample): when the handler writes a response head before
panicking, the time-to-first-byte histogram does receive an observation for
that request, so it is not true that all four histograms receive nothing on
the panic path. -/
theorem serveHTTP_panic_ttfb_cex :
    ((serveHTTP sampleSanitizeMethod sampleSanitizeCode reqFallthrough
          behPanicAfterHead).1.filter isResponseDurationObs).length = 1 ∧
      ¬ ((serveHTTP sampleSanitizeMethod sampleSanitizeCode reqFallthrough
          behPanicAfterHead).1.filter isResponseDurationObs).length = 0 := by
  constructor <;> decide

/-- C10 (amended): if the downstream handler panics, the deferred in-flight
decrement still occurs (last event, gauge netting to zero), the
total-request counter, the error counter and the three finalisation
histograms receive nothing, and the time-to-first-byte histogram has exactly
one observation when the handler wrote a response head before the panic and
none otherwise. -/
theorem serveHTTP_panic_frame (sm : String → String) (sc : Int → String)
    (r : Request) (b : NextBehavior) (h : b.result = .panicked) :
    (serveHTTP sm sc r b).1.filter isRequestCountInc = [] ∧
      (serveHTTP sm sc r b).1.filter isRequestErrorsInc = [] ∧
      (serveHTTP sm sc r b).1.filter isRequestDurationObs = [] ∧
      (serveHTTP sm sc r b).1.filter isRequestSizeObs = [] ∧
      (serveHTTP sm sc r b).1.filter isResponseSizeObs = [] ∧
      (serveHTTP sm sc r b).1.getLast? = some (.inFlightDec r.Host) ∧
      inFlightDelta r.Host (serveHTTP sm sc r b).1 = 0 ∧
      ((serveHTTP sm sc r b).1.filter isResponseDurationObs).length =
        (if b.headWrite.isSome then 1 else 0) ∧
      (serveHTTP sm sc r b).2 = .panicked := by
  rcases b with ⟨hw, res, et, rs, rz⟩
  subst h
  rcases hw with _ | ⟨s, t⟩ <;>
    exact ⟨rfl, rfl, rfl, rfl, rfl, rfl,
      by simp [inFlightDelta, inFlightStep, serveHTTP], rfl, rfl⟩

/-! ## Witnesses -/

/-- An error that wraps a `HandlerError` with status code 502. -/
def errWithStatus : GoError := ⟨some 502, 7⟩

/-- An error with no extractable status code. -/
def errNoStatus : GoError := ⟨none, 8⟩

/-- A run failing with `errWithStatus`, no head written, 5 bytes recorded. -/
def behErrStatus : NextBehavior := ⟨none, .fail errWithStatus, 2, 0, 5⟩

/-- A run failing with `errNoStatus`, no head written. -/
def behErrNoStatus : NextBehavior := ⟨none, .fail errNoStatus, 2, 0, 5⟩

/-- A successful run that writes a 200 head at time 1 and ends at time 2. -/
def behHeadOk : NextBehavior := ⟨some (200, 1), .ok, 2, 200, 10⟩

/-- Witness for `serveHTTP_requestCount_once` on a concrete run. -/
theorem serveHTTP_requestCount_once_witness :
    behFallthrough.result ≠ Outcome.panicked ∧
      ((serveHTTP sampleSanitizeMethod sampleSanitizeCode reqFallthrough
            behFallthrough).1.filter isRequestCountInc =
          [.requestCountInc reqFallthrough.Host] ∧
        ∃ pre post,
          (serveHTTP sampleSanitizeMethod sampleSanitizeCode reqFallthrough
              behFallthrough).1 =
            pre ++ .delegateReturn ::
              .requestCountInc reqFallthrough.Host :: post ∧
          ∀ e ∈ pre, isFinalizationEffect e = false) :=
  ⟨by decide, serveHTTP_requestCount_once sampleSanitizeMethod
    sampleSanitizeCode reqFallthrough behFallthrough (by decide)⟩

/-- Witness for `serveHTTP_error_with_status` on a concrete run. -/
theorem serveHTTP_error_with_status_witness :
    behErrStatus.result = .fail errWithStatus ∧
      errWithStatus.asHandlerError = some 502 ∧
      (∃ c, (serveHTTP sampleSanitizeMethod sampleSanitizeCode reqSample
              behErrStatus).1.filter isRequestDurationObs =
            [.requestDurationObs reqSample.Host c
              (sampleSanitizeMethod reqSample.Method) behErrStatus.endTime] ∧
          (serveHTTP sampleSanitizeMethod sampleSanitizeCode reqSample
              behErrStatus).1.filter isRequestSizeObs =
            [.requestSizeObs reqSample.Host c
              (sampleSanitizeMethod reqSample.Method)
              ((computeApproximateRequestSize reqSample : Int) : ℚ)] ∧
          (serveHTTP sampleSanitizeMethod sampleSanitizeCode reqSample
              behErrStatus).1.filter isResponseSizeObs =
            [.responseSizeObs reqSample.Host c
              (sampleSanitizeMethod reqSample.Method)
              ((behErrStatus.recSize : Int) : ℚ)] ∧
          (serveHTTP sampleSanitizeMethod sampleSanitizeCode reqSample
              behErrStatus).1.filter isRequestErrorsInc =
            [.requestErrorsInc reqSample.Host] ∧
          (serveHTTP sampleSanitizeMethod sampleSanitizeCode reqSample
              behErrStatus).2 = .fail errWithStatus) :=
  ⟨rfl, rfl, serveHTTP_error_with_status sampleSanitizeMethod
    sampleSanitizeCode reqSample behErrStatus errWithStatus 502 rfl rfl⟩

/-- Witness for `serveHTTP_error_no_status` on a concrete run. -/
theorem serveHTTP_error_no_status_witness :
    behErrNoStatus.result = .fail errNoStatus ∧
      errNoStatus.asHandlerError = none ∧
      ((serveHTTP sampleSanitizeMethod sampleSanitizeCode reqSample
            behErrNoStatus).1.filter isRequestDurationObs = [] ∧
        (serveHTTP sampleSanitizeMethod sampleSanitizeCode reqSample
            behErrNoStatus).1.filter isRequestSizeObs = [] ∧
        (serveHTTP sampleSanitizeMethod sampleSanitizeCode reqSample
            behErrNoStatus).1.filter isResponseSizeObs = [] ∧
        (serveHTTP sampleSanitizeMethod sampleSanitizeCode reqSample
            behErrNoStatus).1.filter isRequestErrorsInc =
          [.requestErrorsInc reqSample.Host] ∧
        (serveHTTP sampleSanitizeMethod sampleSanitizeCode reqSample
            behErrNoStatus).2 = .fail errNoStatus) :=
  ⟨rfl, rfl, serveHTTP_error_no_status sampleSanitizeMethod sampleSanitizeCode
    reqSample behErrNoStatus errNoStatus rfl rfl⟩

/-- Witness for `serveHTTP_ttfb_once_le_duration` on a concrete run. -/
theorem serveHTTP_ttfb_once_le_duration_witness :
    clockOk behHeadOk ∧
      (((serveHTTP sampleSanitizeMethod sampleSanitizeCode reqSample
            behHeadOk).1.filter isResponseDurationObs).length ≤ 1 ∧
        (behHeadOk.headWrite = none →
          (serveHTTP sampleSanitizeMethod sampleSanitizeCode reqSample
              behHeadOk).1.filter isResponseDurationObs = []) ∧
        (∀ h1 c1 m1 v, MetricEvent.responseDurationObs h1 c1 m1 v ∈
            (serveHTTP sampleSanitizeMethod sampleSanitizeCode reqSample
              behHeadOk).1 →
          ∀ h2 c2 m2 d, MetricEvent.requestDurationObs h2 c2 m2 d ∈
              (serveHTTP sampleSanitizeMethod sampleSanitizeCode reqSample
                behHeadOk).1 →
            v ≤ d)) :=
  ⟨by norm_num [clockOk, behHeadOk],
    serveHTTP_ttfb_once_le_duration sampleSanitizeMethod sampleSanitizeCode
      reqSample behHeadOk (by norm_num [clockOk, behHeadOk])⟩

/-- Witness for `serveHTTP_panic_frame` on a concrete run. -/
theorem serveHTTP_panic_frame_witness :
    behPanicAfterHead.result = .panicked ∧
      ((serveHTTP sampleSanitizeMethod sampleSanitizeCode reqFallthrough
            behPanicAfterHead).1.filter isRequestCountInc = [] ∧
        (serveHTTP sampleSanitizeMethod sampleSanitizeCode reqFallthrough
            behPanicAfterHead).1.filter isRequestErrorsInc = [] ∧
        (serveHTTP sampleSanitizeMethod sampleSanitizeCode reqFallthrough
            behPanicAfterHead).1.filter isRequestDurationObs = [] ∧
        (serveHTTP sampleSanitizeMethod sampleSanitizeCode reqFallthrough
            behPanicAfterHead).1.filter isRequestSizeObs = [] ∧
        (serveHTTP sampleSanitizeMethod sampleSanitizeCode reqFallthrough
            behPanicAfterHead).1.filter isResponseSizeObs = [] ∧
        (serveHTTP sampleSanitizeMethod sampleSanitizeCode reqFallthrough
            behPanicAfterHead).1.getLast? =
          some (.inFlightDec reqFallthrough.Host) ∧
        inFlightDelta reqFallthrough.Host
          (serveHTTP sampleSanitizeMethod sampleSanitizeCode reqFallthrough
            behPanicAfterHead).1 = 0 ∧
        ((serveHTTP sampleSanitizeMethod sampleSanitizeCode reqFallthrough
            behPanicAfterHead).1.filter isResponseDurationObs).length =
          (if behPanicAfterHead.headWrite.isSome then 1 else 0) ∧
        (serveHTTP sampleSanitizeMethod sampleSanitizeCode reqFallthrough
            behPanicAfterHead).2 = .panicked) :=
  ⟨rfl, serveHTTP_panic_frame sampleSanitizeMethod sampleSanitizeCode
    reqFallthrough behPanicAfterHead rfl⟩
